import Mathlib

/-!
Verification of the delite pixel-adjustment core against its C source.

The embedding models:
- `AdjustPixelData` (src/src/main.c, lines 296-331): the top-K selection and
  adjustment loop over a 16-bit pixel buffer;
- `GeneratePreviewBitmapFrom16Bit` (src/src/main.c, lines 355-390): the 16-bit
  to 8-bit downscale and square dimensioning;
- the bitmap builder `BitmapInit8BitGrayscale`, `BitmapSetWidthHeight`,
  `BitmapFillPixelData` (src/unnamed/part_001) and the serializer
  `WriteBmpToFile` (src/src/main.c, lines 410-441), over the packed
  (`#pragma pack(1)`) struct layouts of bitmap.h.

Buffers are `List ℕ` with values understood to be below 2 ^ 16; machine
truncation is written explicitly (`% 65536`) where the C types force it.
-/

set_option maxRecDepth 40000

namespace Delite

/-- Return status of the C functions: `EXIT_SUCCESS` / `EXIT_FAILURE`. -/
inductive Status where
  | success : Status
  | failure : Status
deriving DecidableEq

/-- State of the inner scan of `AdjustPixelData` (main.c lines 316-322) after
`j` iterations of the `for (j = 0; j < size; j++)` loop.  The accumulator pair
is `(current_max, max_index)`; `current_max` is reset to `0` before the scan
and `max_index` enters with its value `mi0` from the previous round (it is
declared outside the outer loop and initialised to `0`).  The C condition is
`(data[j] > current_max) && (!adjusted_flag[j])`; `max_index` is a `uint16_t`,
so the stored index is truncated modulo 2 ^ 16. -/
def scanIter (data : List ℕ) (flags : List Bool) (mi0 : ℕ) : ℕ → ℕ × ℕ
  | 0 => (0, mi0)
  | j + 1 =>
    let acc := scanIter data flags mi0 j
    if data.getD j 0 > acc.1 ∧ flags.getD j false = false then
      (data.getD j 0, j % 65536)
    else
      acc

/-- Result `(current_max, max_index)` of one full inner scan over the buffer
(main.c lines 317-321). -/
def scanMax (data : List ℕ) (flags : List Bool) (mi0 : ℕ) : ℕ × ℕ :=
  scanIter data flags mi0 data.length

/-- Mutable state of `AdjustPixelData`: the pixel buffer, the `adjusted_flag`
array, and the `max_index` variable that persists across rounds. -/
structure AdjState where
  data : List ℕ
  flags : List Bool
  maxIndex : ℕ
deriving DecidableEq

/-- One round of the outer loop of `AdjustPixelData` (main.c lines 316-324):
scan for the maximum unflagged value, then execute
`data[max_index] *= (1 - ((float) adjustment_level) / 100)` and
`adjusted_flag[max_index] = true`.  The float multiplication-and-truncation is
abstracted as `scale : ℕ → ℕ`, a fixed function of the adjustment level. -/
def adjustRound (scale : ℕ → ℕ) (s : AdjState) : AdjState :=
  let mi := (scanMax s.data s.flags s.maxIndex).2
  { data := s.data.set mi (scale (s.data.getD mi 0))
    flags := s.flags.set mi true
    maxIndex := mi }

/-- The outer loop `for (i = 0; i < pixel_count; i++)` of `AdjustPixelData`:
`adjustLoop scale k s` is the state after `k` rounds starting from `s`. -/
def adjustLoop (scale : ℕ → ℕ) : ℕ → AdjState → AdjState
  | 0, s => s
  | k + 1, s => adjustLoop scale k (adjustRound scale s)

/-- Initial state of `AdjustPixelData`: the input buffer, the `calloc`ed flag
array (all `false`), and `max_index = 0`. -/
def initState (data : List ℕ) : AdjState :=
  ⟨data, List.replicate data.length false, 0⟩

/-- Full run of the selection loop of `AdjustPixelData` on `data` with
`pixel_count = k`. -/
def adjustRun (scale : ℕ → ℕ) (data : List ℕ) (k : ℕ) : AdjState :=
  adjustLoop scale k (initState data)

/-- The buffer after `AdjustPixelData(data, size, pixel_count, level)`. -/
def adjustPixelData (scale : ℕ → ℕ) (data : List ℕ) (k : ℕ) : List ℕ :=
  (adjustRun scale data k).data

/-- Return status of `AdjustPixelData` (main.c lines 311-313): failure exactly
when the buffer is empty (`0 == size`); allocation is assumed to succeed. -/
def adjustStatus (data : List ℕ) : Status :=
  if data.length = 0 then Status.failure else Status.success

/-- Scale function for `adjustment_level = 0`: the C expression
`(1 - ((float) 0) / 100)` is exactly `1.0f`, and `v * 1.0f` followed by the
truncating conversion back to `uint16_t` returns `v` unchanged, since every
16-bit integer is exactly representable as a float. -/
def scaleLevel0 : ℕ → ℕ := fun v => v

/-- Scale function for `adjustment_level = 50`: `50.0f / 100` is exactly
`0.5f`, and `v * 0.5f` is exact for 16-bit `v`, so the truncating conversion
to `uint16_t` yields `v / 2` rounded toward zero. -/
def scaleLevel50 : ℕ → ℕ := fun v => v / 2

/-- Scale function for `adjustment_level = 100`: `(1 - 100.0f / 100)` is
exactly `0.0f`, so every written value is exactly `0`. -/
def scaleLevel100 : ℕ → ℕ := fun _ => 0

/-- Modelled from the spec: the naive reference selection ("re-running
selection on the original buffer with a naive full sort").  Index `i` ranks
before index `j` when its value is larger, or equal with `i` lower; the
reference touches exactly the indices of rank below `K`. -/
def naiveRank (data : List ℕ) (i : ℕ) : ℕ :=
  ((List.range data.length).filter fun j =>
    data.getD i 0 < data.getD j 0 ∨ (data.getD j 0 = data.getD i 0 ∧ j < i)).length

/-- Modelled from the spec: the positions of the `K` largest original values,
ties broken toward the lowest index. -/
def naiveTopK (data : List ℕ) (k : ℕ) : List ℕ :=
  (List.range data.length).filter fun i => naiveRank data i < k

example : scanMax [3, 7, 7] [false, false, false] 0 = (7, 1) := by decide
example : scanMax [0, 0] [true, false] 0 = (0, 0) := by decide
example : adjustPixelData scaleLevel100 [5, 0] 2 = [0, 0] := by decide
example : (adjustRun scaleLevel100 [5, 0] 2).flags = [true, false] := by decide
example : adjustPixelData scaleLevel50 [100] 2 = [25] := by decide
example : naiveTopK [5, 0] 2 = [0, 1] := by decide

/-- Side length of the square preview (main.c lines 371-373):
`image_size = sqrt(size)` truncated to an unsigned integer, then
`image_size & ~0x03`.  For arguments below 2 ^ 32 the double-precision
`sqrt` truncates to exactly `Nat.sqrt`, and clearing the two low bits of a
32-bit value subtracts the remainder modulo 4. -/
def sideLength (n : ℕ) : ℕ :=
  Nat.sqrt n - Nat.sqrt n % 4

/-- The 8-bit buffer produced by the loop at main.c lines 377-381: for every
`i` below `side * side`, `scaled_data[i].u8 = data[i] / 256U`. -/
def downscale (data : List ℕ) : List ℕ :=
  (data.take (sideLength data.length * sideLength data.length)).map fun v => v / 256

/-- One entry of the bitmap color table: `struct Bitmap_ColorEntry` of
bitmap.h, four `uint8_t` fields in the order red, green, blue, reserved,
packed to 1-byte alignment (4 bytes per entry). -/
structure ColorEntry where
  red : ℕ
  green : ℕ
  blue : ℕ
  reserved : ℕ
deriving DecidableEq

/-- The bitmap file header: `struct Bitmap_Header` of bitmap.h, packed to
1-byte alignment — `uint16_t signature`, `uint32_t file_size`,
`uint32_t reserved`, `uint32_t pixel_data_offset`, 14 bytes in total. -/
structure BitmapHeader where
  signature : ℕ
  file_size : ℕ
  reserved : ℕ
  pixel_data_offset : ℕ
deriving DecidableEq

/-- The bitmap info header: `struct Bitmap_Info_Header` of bitmap.h, packed
to 1-byte alignment — `uint32_t header_size, width, height`,
`uint16_t planes_count, bit_depth`, `uint32_t compression, image_size,
x_resolution, y_resolution, colors_used, important_colors`, 40 bytes in
total. -/
structure BitmapInfoHeader where
  header_size : ℕ
  width : ℕ
  height : ℕ
  planes_count : ℕ
  bit_depth : ℕ
  compression : ℕ
  image_size : ℕ
  x_resolution : ℕ
  y_resolution : ℕ
  colors_used : ℕ
  important_colors : ℕ
deriving DecidableEq

/-- The in-memory bitmap (`struct Bitmap`). -/
structure Bitmap where
  header : BitmapHeader
  info_header : BitmapInfoHeader
  color_table : List ColorEntry
  pixel_data : List ℕ
deriving DecidableEq

/-- The grayscale ramp built by the loop at part_001 lines 48-53: entry `i`
has all three channels equal to `i` and `reserved = 0`. -/
def grayRamp : List ColorEntry :=
  (List.range 256).map fun i => ⟨i, i, i, 0⟩

/-- The value `sizeof(struct Bitmap_Header) + sizeof(struct
Bitmap_Info_Header) + 256U * sizeof(struct Bitmap_ColorEntry)` computed by
`BitmapInit8BitGrayscale`: with the `#pragma pack(1)` layouts of bitmap.h the
struct sizes are 14, 40 and 4 bytes. -/
def pixelDataOffset : ℕ := 14 + 40 + 256 * 4

/-- The bitmap produced by `BitmapInit8BitGrayscale` (part_001 lines 15-56),
assuming the allocations succeed.  The designated initialisers set only
`signature` and `pixel_data_offset` in the header and the five listed info
fields; every remaining field is zero-initialised.  `BITMAP_MAGIC` is
`0x4D42` per bitmap.h (the ASCII bytes "BM" as a little-endian
`uint16_t`). -/
def bitmapInit8BitGrayscale : Bitmap :=
  { header :=
      { signature := 0x4D42
        file_size := 0
        reserved := 0
        pixel_data_offset := pixelDataOffset }
    info_header :=
      { header_size := 40
        width := 0
        height := 0
        planes_count := 1
        bit_depth := 8
        compression := 0
        image_size := 0
        x_resolution := 0
        y_resolution := 0
        colors_used := 256
        important_colors := 0 }
    color_table := grayRamp
    pixel_data := [] }

/-- `BitmapSetWidthHeight` (part_001 lines 60-82): reject a width that is not
a multiple of 4 (leaving the bitmap untouched), otherwise set `image_size`,
`width`, `height` and recompute `file_size`. -/
def bitmapSetWidthHeight (b : Bitmap) (w h : ℕ) : Status × Bitmap :=
  if w % 4 ≠ 0 then
    (Status.failure, b)
  else
    (Status.success,
      { b with
          info_header :=
            { b.info_header with image_size := w * h, width := w, height := h }
          header :=
            { b.header with
                file_size := w * h + b.header.pixel_data_offset } })

/-- `BitmapFillPixelData` (part_001 lines 91-118): allocate `image_size` bytes
and copy `data[i].u8` for every `i` below `image_size`; any bit depth other
than 8 fails. -/
def bitmapFillPixelData (b : Bitmap) (data : List ℕ) : Status × Bitmap :=
  if b.info_header.bit_depth = 8 then
    (Status.success,
      { b with
          pixel_data :=
            (List.range b.info_header.image_size).map fun i => data.getD i 0 })
  else
    (Status.failure, b)

/-- Building a grayscale bitmap from an 8-bit buffer: initialise, set the
geometry, fill the pixel rows, stopping at the first failing step — the
sequencing used by `GeneratePreviewBitmapFrom16Bit` (main.c lines 369-386). -/
def buildGrayscaleBitmap (w h : ℕ) (pix : List ℕ) : Status × Bitmap :=
  let b0 := bitmapInit8BitGrayscale
  match bitmapSetWidthHeight b0 w h with
  | (Status.failure, b) => (Status.failure, b)
  | (Status.success, b) => bitmapFillPixelData b pix

/-- `GeneratePreviewBitmapFrom16Bit` (main.c lines 355-390), with allocations
assumed to succeed.  The guard at lines 364-367 sets `status = EXIT_FAILURE`
when `size` is 0, but line 369 unconditionally overwrites `status` with the
result of `BitmapInit8BitGrayscale`, so the guard has no effect; the model
keeps the dead store visible. -/
def generatePreviewBitmapFrom16Bit (data : List ℕ) : Status × Bitmap :=
  let _statusDead := if data.length = 0 then Status.failure else Status.success
  let s := sideLength data.length
  buildGrayscaleBitmap s s (downscale data)

/-- Little-endian byte encoding of `v` on `w` bytes. -/
def leBytes (w v : ℕ) : List ℕ :=
  (List.range w).map fun i => v / 256 ^ i % 256

/-- Byte image of the packed `struct Bitmap_Header` that `WriteBmpToFile`
memcpys: the fields of bitmap.h in declaration order — signature (2 bytes),
file_size (4), reserved (4), pixel_data_offset (4) — each little-endian,
14 bytes in total. -/
def serializeHeader (h : BitmapHeader) : List ℕ :=
  leBytes 2 h.signature ++ leBytes 4 h.file_size ++ leBytes 4 h.reserved ++
    leBytes 4 h.pixel_data_offset

/-- Byte image of the packed `struct Bitmap_Info_Header` that
`WriteBmpToFile` memcpys (`header_size` = 40 bytes): the fields of bitmap.h
in declaration order — header_size (4), width (4), height (4), planes_count
(2), bit_depth (2), compression (4), image_size (4), x_resolution (4),
y_resolution (4), colors_used (4), important_colors (4) — little-endian. -/
def serializeInfoHeader (ih : BitmapInfoHeader) : List ℕ :=
  leBytes 4 ih.header_size ++ leBytes 4 ih.width ++ leBytes 4 ih.height ++
    leBytes 2 ih.planes_count ++ leBytes 2 ih.bit_depth ++
    leBytes 4 ih.compression ++ leBytes 4 ih.image_size ++
    leBytes 4 ih.x_resolution ++ leBytes 4 ih.y_resolution ++
    leBytes 4 ih.colors_used ++ leBytes 4 ih.important_colors

/-- Byte image of the color table that `WriteBmpToFile` memcpys:
`colors_used` packed `struct Bitmap_ColorEntry` records, each emitting its
four `uint8_t` fields in declaration order red, green, blue, reserved. -/
def serializeColorTable : List ColorEntry → List ℕ
  | [] => []
  | e :: es => [e.red, e.green, e.blue, e.reserved] ++ serializeColorTable es

/-- The contiguous byte buffer assembled by `WriteBmpToFile` (main.c lines
418-433): header, info header, color table, then the pixel data copied
verbatim at `pixel_data_offset` (which equals 14 + 40 + 256 * 4 for every
bitmap built here, so the regions are adjacent). -/
def serializeBitmap (b : Bitmap) : List ℕ :=
  serializeHeader b.header ++ serializeInfoHeader b.info_header ++
    serializeColorTable b.color_table ++ b.pixel_data

/-- The structural invariants of §3 of the spec for the 8-bit grayscale
bitmap. -/
def bitmapInvariants (b : Bitmap) : Prop :=
  b.info_header.width % 4 = 0 ∧
    b.info_header.image_size = b.info_header.width * b.info_header.height ∧
    b.header.pixel_data_offset = 14 + 40 + 256 * 4 ∧
    b.header.file_size = b.header.pixel_data_offset + b.info_header.image_size ∧
    b.info_header.colors_used = 256 ∧
    b.info_header.bit_depth = 8

instance (b : Bitmap) : Decidable (bitmapInvariants b) := by
  unfold bitmapInvariants
  infer_instance

/-- Helper for computing `Nat.sqrt` on literals: `Nat.sqrt` is defined by
well-founded recursion, so the kernel cannot evaluate it directly. -/
theorem sqrt_eq_of {m n : ℕ} (h1 : m * m ≤ n) (h2 : n < (m + 1) * (m + 1)) :
    Nat.sqrt n = m :=
  Nat.le_antisymm (Nat.lt_succ_iff.mp (Nat.sqrt_lt.mpr h2)) (Nat.le_sqrt.mpr h1)

/-- Helper for computing `sideLength` on literals without forcing the kernel
to reduce `Nat.sqrt`. -/
theorem sideLength_eq_of {m n : ℕ} (h1 : m * m ≤ n) (h2 : n < (m + 1) * (m + 1)) :
    sideLength n = m - m % 4 := by
  delta sideLength
  rw [sqrt_eq_of h1 h2]

theorem sideLength_zero : sideLength 0 = 0 :=
  Eq.trans (sideLength_eq_of (m := 0) (by norm_num) (by norm_num)) rfl

theorem sideLength_fifteen : sideLength 15 = 0 :=
  Eq.trans (sideLength_eq_of (m := 3) (by norm_num) (by norm_num)) rfl

theorem sideLength_sixteen : sideLength 16 = 4 :=
  Eq.trans (sideLength_eq_of (m := 4) (by norm_num) (by norm_num)) rfl

example : sideLength 45000 = 212 :=
  Eq.trans (sideLength_eq_of (m := 212) (by norm_num) (by norm_num)) rfl

example : (generatePreviewBitmapFrom16Bit []).1 = Status.success := by
  simp only [generatePreviewBitmapFrom16Bit, downscale, List.length_nil,
    sideLength_zero]
  decide

/-! ### Basic list lemmas used by the selector proofs -/

theorem getD_set {α : Type} (l : List α) (i j : ℕ) (v d : α) :
    (l.set i v).getD j d = if i = j ∧ i < l.length then v else l.getD j d := by
  simp only [List.getD_eq_getElem?_getD, List.getElem?_set]
  by_cases hij : i = j
  · subst hij
    by_cases hlen : i < l.length
    · simp [hlen]
    · have hnone : l[i]? = none := List.getElem?_eq_none (by omega)
      simp [hlen, hnone]
  · simp [hij]

theorem set_getD_self {α : Type} (l : List α) (i : ℕ) (d : α) :
    l.set i (l.getD i d) = l := by
  apply List.ext_getElem?
  intro n
  rw [List.getElem?_set]
  by_cases hij : i = n
  · subst hij
    by_cases hlen : i < l.length
    · simp [hlen, List.getD_eq_getElem?_getD, List.getElem?_eq_getElem hlen]
    · simp only [if_neg hlen]
      exact (List.getElem?_eq_none (by omega)).symm
  · simp [hij]

theorem getD_replicate {α : Type} (n i : ℕ) (a : α) :
    (List.replicate n a).getD i a = a := by
  rw [List.getD_eq_getElem?_getD, List.getElem?_replicate]
  by_cases h : i < n <;> simp [h]

theorem count_set_true_le (l : List Bool) (i : ℕ) :
    (l.set i true).count true ≤ l.count true + 1 := by
  induction l generalizing i with
  | nil => simp
  | cons a t ih =>
    cases i with
    | zero =>
      simp only [List.set_cons_zero, List.count_cons]
      cases a <;> simp
    | succ n =>
      simp only [List.set_cons_succ, List.count_cons]
      have := ih n
      omega

theorem countP_getD_eq_count (l : List Bool) :
    (List.range l.length).countP (fun i => l.getD i false) = l.count true := by
  induction l with
  | nil => simp
  | cons a t ih =>
    rw [List.length_cons, List.range_succ_eq_map, List.countP_cons,
      List.countP_map]
    have hcong :
        (List.range t.length).countP ((fun i => (a :: t).getD i false) ∘ Nat.succ) =
          (List.range t.length).countP (fun i => t.getD i false) := by
      apply List.countP_congr
      intro x _
      rfl
    rw [hcong, ih, List.count_cons]
    cases a <;> simp

/-! ### Structural invariants of the selection loop -/

theorem adjustRound_data_length (scale : ℕ → ℕ) (s : AdjState) :
    (adjustRound scale s).data.length = s.data.length := by
  simp [adjustRound]

theorem adjustRound_flags_length (scale : ℕ → ℕ) (s : AdjState) :
    (adjustRound scale s).flags.length = s.flags.length := by
  simp [adjustRound]

theorem adjustLoop_data_length (scale : ℕ → ℕ) (k : ℕ) (s : AdjState) :
    (adjustLoop scale k s).data.length = s.data.length := by
  induction k generalizing s with
  | zero => rfl
  | succ k ih => rw [adjustLoop, ih, adjustRound_data_length]

theorem adjustLoop_flags_length (scale : ℕ → ℕ) (k : ℕ) (s : AdjState) :
    (adjustLoop scale k s).flags.length = s.flags.length := by
  induction k generalizing s with
  | zero => rfl
  | succ k ih => rw [adjustLoop, ih, adjustRound_flags_length]

/-- A position whose flag is still clear after one round was never written in
that round: its pixel value is unchanged and its flag was already clear. -/
theorem adjustRound_flag_false (scale : ℕ → ℕ) (s : AdjState) (i : ℕ)
    (hlen : s.data.length = s.flags.length)
    (h : (adjustRound scale s).flags.getD i false = false) :
    (adjustRound scale s).data.getD i 0 = s.data.getD i 0 ∧
      s.flags.getD i false = false := by
  simp only [adjustRound] at h ⊢
  rw [getD_set] at h
  by_cases hc : (scanMax s.data s.flags s.maxIndex).2 = i ∧
      (scanMax s.data s.flags s.maxIndex).2 < s.flags.length
  · rw [if_pos hc] at h
    exact absurd h (by simp)
  · rw [if_neg hc] at h
    exact ⟨by rw [getD_set, if_neg (by rw [hlen]; exact hc)], h⟩

/-- A position whose flag is still clear after the loop was never written:
its pixel value is unchanged and its flag was clear from the start. -/
theorem adjustLoop_untouched (scale : ℕ → ℕ) (k : ℕ) (s : AdjState) (i : ℕ)
    (hlen : s.data.length = s.flags.length)
    (h : (adjustLoop scale k s).flags.getD i false = false) :
    (adjustLoop scale k s).data.getD i 0 = s.data.getD i 0 ∧
      s.flags.getD i false = false := by
  induction k generalizing s with
  | zero => exact ⟨rfl, h⟩
  | succ k ih =>
    rw [adjustLoop] at h ⊢
    have hlen2 : (adjustRound scale s).data.length =
        (adjustRound scale s).flags.length := by
      rw [adjustRound_data_length, adjustRound_flags_length, hlen]
    obtain ⟨h1, h2⟩ := ih (adjustRound scale s) hlen2 h
    obtain ⟨h3, h4⟩ := adjustRound_flag_false scale s i hlen h2
    exact ⟨by rw [h1, h3], h4⟩

theorem adjustLoop_count_le (scale : ℕ → ℕ) (k : ℕ) (s : AdjState) :
    (adjustLoop scale k s).flags.count true ≤ s.flags.count true + k := by
  induction k generalizing s with
  | zero => simp [adjustLoop]
  | succ k ih =>
    rw [adjustLoop]
    calc (adjustLoop scale k (adjustRound scale s)).flags.count true ≤
        (adjustRound scale s).flags.count true + k := ih _
      _ ≤ s.flags.count true + 1 + k := by
          simpa [adjustRound] using
            Nat.add_le_add_right (count_set_true_le s.flags _) k
      _ = s.flags.count true + (k + 1) := by omega

/-- C10: `AdjustPixelData` leaves every position it never selects unchanged;
at most `pixel_count` positions can differ from the original buffer, and the
unselected positions hold exactly their original values.  The selected
positions are exactly those whose `adjusted_flag` entry is set. -/
theorem adjust_frame_effect (scale : ℕ → ℕ) (data : List ℕ) (k : ℕ)
    (_hne : data ≠ []) (_hk : k ≤ data.length) :
    (∀ i, (adjustRun scale data k).flags.getD i false = false →
        (adjustPixelData scale data k).getD i 0 = data.getD i 0) ∧
      (List.range data.length).countP
          (fun i => (adjustPixelData scale data k).getD i 0 != data.getD i 0) ≤ k := by
  have hlen0 : (initState data).data.length = (initState data).flags.length := by
    simp [initState]
  constructor
  · intro i hi
    exact (adjustLoop_untouched scale k (initState data) i hlen0 hi).1
  · have hmono :
        (List.range data.length).countP
            (fun i => (adjustPixelData scale data k).getD i 0 != data.getD i 0) ≤
          (List.range data.length).countP
            (fun i => (adjustRun scale data k).flags.getD i false) := by
      apply List.countP_mono_left
      intro i _ hdiff
      by_contra hflag
      have hfalse : (adjustRun scale data k).flags.getD i false = false := by
        revert hflag
        cases (adjustRun scale data k).flags.getD i false <;> simp
      have heq := (adjustLoop_untouched scale k (initState data) i hlen0 hfalse).1
      rw [bne_iff_ne] at hdiff
      exact hdiff heq
    have hflagslen : (adjustRun scale data k).flags.length = data.length := by
      rw [adjustRun, adjustLoop_flags_length]
      simp [initState]
    have hcount : (List.range data.length).countP
        (fun i => (adjustRun scale data k).flags.getD i false) =
          (adjustRun scale data k).flags.count true := by
      rw [← hflagslen, countP_getD_eq_count]
    have hbound : (adjustRun scale data k).flags.count true ≤
        (initState data).flags.count true + k :=
      adjustLoop_count_le scale k (initState data)
    have hzero : (initState data).flags.count true = 0 := by
      simp [initState, List.count_replicate]
    omega

/-- Concrete instance of `adjust_frame_effect`: one round on `[5, 3]` leaves
the unselected position 1 unchanged. -/
theorem adjust_frame_effect_witness :
    ([5, 3] : List ℕ) ≠ [] ∧ 1 ≤ ([5, 3] : List ℕ).length ∧
      (adjustPixelData scaleLevel50 [5, 3] 1).getD 1 0 = ([5, 3] : List ℕ).getD 1 0 :=
  ⟨by decide, by decide,
    (adjust_frame_effect scaleLevel50 [5, 3] 1 (by decide) (by decide)).1 1
      (by decide)⟩

/-! ### Adjustment level 0 and 100 -/

/-- With `adjustment_level = 0` every round writes back the value it reads,
so the loop never changes the buffer. -/
theorem adjustLoop_level0_data (k : ℕ) (s : AdjState) :
    (adjustLoop scaleLevel0 k s).data = s.data := by
  induction k generalizing s with
  | zero => rfl
  | succ k ih =>
    rw [adjustLoop, ih]
    simp only [adjustRound, scaleLevel0]
    exact set_getD_self s.data _ 0

/-- With `adjustment_level = 100` one round preserves the invariant that
every flagged position holds 0. -/
theorem adjustRound_level100_flagged (s : AdjState) (i : ℕ)
    (hlen : s.data.length = s.flags.length)
    (hinv : ∀ j, s.flags.getD j false = true → s.data.getD j 0 = 0)
    (hi : (adjustRound scaleLevel100 s).flags.getD i false = true) :
    (adjustRound scaleLevel100 s).data.getD i 0 = 0 := by
  simp only [adjustRound, scaleLevel100] at hi ⊢
  rw [getD_set] at hi
  rw [getD_set]
  by_cases hc : (scanMax s.data s.flags s.maxIndex).2 = i ∧
      (scanMax s.data s.flags s.maxIndex).2 < s.data.length
  · rw [if_pos hc]
  · rw [if_neg hc]
    rw [if_neg (by rw [← hlen]; exact hc)] at hi
    exact hinv i hi

/-- With `adjustment_level = 100` every flagged position holds 0 after the
loop. -/
theorem adjustLoop_level100_flagged (k : ℕ) (s : AdjState) (i : ℕ)
    (hlen : s.data.length = s.flags.length)
    (hinv : ∀ j, s.flags.getD j false = true → s.data.getD j 0 = 0)
    (hi : (adjustLoop scaleLevel100 k s).flags.getD i false = true) :
    (adjustLoop scaleLevel100 k s).data.getD i 0 = 0 := by
  induction k generalizing s with
  | zero => exact hinv i hi
  | succ k ih =>
    rw [adjustLoop] at hi ⊢
    refine ih (adjustRound scaleLevel100 s) ?_ ?_ hi
    · rw [adjustRound_data_length, adjustRound_flags_length, hlen]
    · exact fun j => adjustRound_level100_flagged s j hlen hinv

/-- C8: with `adjustment_level = 0` the buffer comes back byte-identical,
and with `adjustment_level = 100` every selected position (a position whose
`adjusted_flag` entry is set) holds exactly 0 afterwards. -/
theorem adjust_level_extremes (data : List ℕ) (k : ℕ)
    (_hne : data ≠ []) (_hk : 1 ≤ k) :
    adjustPixelData scaleLevel0 data k = data ∧
      ∀ i, (adjustRun scaleLevel100 data k).flags.getD i false = true →
        (adjustPixelData scaleLevel100 data k).getD i 0 = 0 := by
  constructor
  · exact adjustLoop_level0_data k (initState data)
  · intro i hi
    refine adjustLoop_level100_flagged k (initState data) i ?_ ?_ hi
    · simp [initState]
    · intro j hj
      rw [initState] at hj
      rw [getD_replicate] at hj
      exact absurd hj (by simp)

/-- Concrete instance of `adjust_level_extremes` on the buffer `[300, 7]`
with one selection round. -/
theorem adjust_level_extremes_witness :
    (([300, 7] : List ℕ) ≠ [] ∧ 1 ≤ 1) ∧
      adjustPixelData scaleLevel0 [300, 7] 1 = [300, 7] ∧
      (adjustPixelData scaleLevel100 [300, 7] 1).getD 0 0 = 0 :=
  ⟨⟨by decide, by decide⟩,
    (adjust_level_extremes [300, 7] 1 (by decide) (by decide)).1,
    (adjust_level_extremes [300, 7] 1 (by decide) (by decide)).2 0 (by decide)⟩

/-! ### Defects of the selection loop: zero-valued pixels and overrun -/

/-- C1 fails on the code: on the buffer `[5, 0]` with `pixel_count = 2` the
naive reference touches positions 0 and 1 (the two largest original values,
5 and 0), but the loop never selects position 1 — its flag stays clear and
round 2 re-selects the stale `max_index` 0 — because the scan starts from
`current_max = 0` with a strict comparison and therefore cannot see a
zero-valued pixel. -/
theorem adjust_misses_zero_valued_pixel :
    naiveTopK [5, 0] 2 = [0, 1] ∧
      (adjustRun scaleLevel100 [5, 0] 2).flags = [true, false] ∧
      adjustPixelData scaleLevel100 [5, 0] 2 = [0, 0] := by
  decide

/-- C2 fails on the code: with `N = 1` and `pixel_count = 2` at adjustment
level 50 the loop does not stop after flagging the single index.  Round 1
correctly turns `[100]` into `[50]`, but round 2 finds no unflagged index,
keeps the stale `max_index = 0`, and halves the value again to `[25]`.  The
function still returns success. -/
theorem adjust_overrun_when_count_exceeds_size :
    adjustStatus [100] = Status.success ∧
      (adjustRun scaleLevel50 [100] 1).data = [50] ∧
      adjustPixelData scaleLevel50 [100] 2 = [25] := by
  decide

/-! ### Characterisation of the inner scan -/

/-- When every unflagged position in the scanned range holds 0, the scan
updates nothing: `current_max` stays 0 and `max_index` keeps its stale
value. -/
theorem scanIter_all_zero (data : List ℕ) (flags : List Bool) (mi0 : ℕ) :
    ∀ n, (∀ j, j < n → flags.getD j false = false → data.getD j 0 = 0) →
      scanIter data flags mi0 n = (0, mi0) := by
  intro n
  induction n with
  | zero => intro _; rfl
  | succ n ih =>
    intro h
    have hacc := ih fun j hj => h j (by omega)
    have hneg : ¬(data.getD n 0 > (scanIter data flags mi0 n).1 ∧
        flags.getD n false = false) := by
      rintro ⟨h1, h2⟩
      have h3 := h n (by omega) h2
      have h4 : (scanIter data flags mi0 n).1 = 0 := by rw [hacc]
      omega
    simp only [scanIter]
    rw [if_neg hneg]
    exact hacc

/-- When some unflagged position in the scanned range holds a positive value,
the scan returns the maximum value over the unflagged positions together with
the first unflagged index at which it occurs: the chosen index is in range and
unflagged, it holds the returned (positive) maximum, every unflagged position
in range is bounded by it, and every unflagged position before it is strictly
below it. -/
theorem scanIter_first_max (data : List ℕ) (flags : List Bool) (mi0 : ℕ) :
    ∀ n, n ≤ 65536 →
      (∃ j, j < n ∧ flags.getD j false = false ∧ 0 < data.getD j 0) →
      (scanIter data flags mi0 n).2 < n ∧
        flags.getD (scanIter data flags mi0 n).2 false = false ∧
        data.getD (scanIter data flags mi0 n).2 0 = (scanIter data flags mi0 n).1 ∧
        0 < (scanIter data flags mi0 n).1 ∧
        (∀ j, j < n → flags.getD j false = false →
          data.getD j 0 ≤ (scanIter data flags mi0 n).1) ∧
        (∀ j, j < (scanIter data flags mi0 n).2 → flags.getD j false = false →
          data.getD j 0 < (scanIter data flags mi0 n).1) := by
  intro n
  induction n with
  | zero =>
    intro _ h
    obtain ⟨j, hj, _⟩ := h
    exact absurd hj (by omega)
  | succ n ih =>
    intro hn16 h
    by_cases hall : ∀ j, j < n → flags.getD j false = false → data.getD j 0 = 0
    · have hacc := scanIter_all_zero data flags mi0 n hall
      obtain ⟨j, hj, hjf, hjp⟩ := h
      have hjn : j = n := by
        by_contra hne2
        have hjlt : j < n := by omega
        have := hall j hjlt hjf
        omega
      subst hjn
      have hcond : data.getD j 0 > (scanIter data flags mi0 j).1 ∧
          flags.getD j false = false := by
        refine ⟨?_, hjf⟩
        have : (scanIter data flags mi0 j).1 = 0 := by rw [hacc]
        omega
      have heq : scanIter data flags mi0 (j + 1) = (data.getD j 0, j) := by
        simp only [scanIter]
        rw [if_pos hcond, Nat.mod_eq_of_lt (by omega)]
      rw [heq]
      refine ⟨by omega, hjf, rfl, hjp, ?_, ?_⟩
      · intro t ht htf
        by_cases htn : t < j
        · rw [hall t htn htf]
          exact Nat.zero_le _
        · have : t = j := by omega
          subst this
          exact Nat.le_refl _
      · intro t ht htf
        have htn : t < j := ht
        rw [hall t htn htf]
        exact hjp
    · have hex2 : ∃ j, j < n ∧ flags.getD j false = false ∧ 0 < data.getD j 0 := by
        push_neg at hall
        obtain ⟨j, h1, h2, h3⟩ := hall
        exact ⟨j, h1, h2, Nat.pos_of_ne_zero h3⟩
      obtain ⟨ih1, ih2, ih3, ih4, ih5, ih6⟩ := ih (by omega) hex2
      by_cases hcond : data.getD n 0 > (scanIter data flags mi0 n).1 ∧
          flags.getD n false = false
      · have heq : scanIter data flags mi0 (n + 1) = (data.getD n 0, n) := by
          simp only [scanIter]
          rw [if_pos hcond, Nat.mod_eq_of_lt (by omega)]
        rw [heq]
        have hgt := hcond.1
        refine ⟨by omega, hcond.2, rfl, by omega, ?_, ?_⟩
        · intro t ht htf
          by_cases htn : t < n
          · have := ih5 t htn htf
            show data.getD t 0 ≤ data.getD n 0
            omega
          · have : t = n := by omega
            subst this
            exact Nat.le_refl _
        · intro t ht htf
          have htn : t < n := ht
          have := ih5 t htn htf
          show data.getD t 0 < data.getD n 0
          omega
      · have heq : scanIter data flags mi0 (n + 1) = scanIter data flags mi0 n := by
          simp only [scanIter]
          rw [if_neg hcond]
        rw [heq]
        refine ⟨by omega, ih2, ih3, ih4, ?_, ih6⟩
        intro t ht htf
        by_cases htn : t < n
        · exact ih5 t htn htf
        · have hteq : t = n := by omega
          rw [hteq] at htf ⊢
          have hnle : ¬data.getD n 0 > (scanIter data flags mi0 n).1 :=
            fun hgt => hcond ⟨hgt, htf⟩
          omega

/-- C3 (amended): in a scan over a buffer of at most 2 ^ 16 samples in which
some unflagged position holds a nonzero value, the chosen index is in range,
unflagged, holds the maximum value over all unflagged positions, and every
unflagged position before it is strictly smaller — so ties resolve to the
earliest unflagged index and later equal values are not chosen. -/
theorem scan_selects_first_max (data : List ℕ) (flags : List Bool) (mi0 : ℕ)
    (h16 : data.length ≤ 65536)
    (h : ∃ j, j < data.length ∧ flags.getD j false = false ∧ 0 < data.getD j 0) :
    (scanMax data flags mi0).2 < data.length ∧
      flags.getD (scanMax data flags mi0).2 false = false ∧
      data.getD (scanMax data flags mi0).2 0 = (scanMax data flags mi0).1 ∧
      (∀ j, j < data.length → flags.getD j false = false →
        data.getD j 0 ≤ (scanMax data flags mi0).1) ∧
      (∀ j, j < (scanMax data flags mi0).2 → flags.getD j false = false →
        data.getD j 0 < (scanMax data flags mi0).1) := by
  obtain ⟨h1, h2, h3, _, h5, h6⟩ :=
    scanIter_first_max data flags mi0 data.length h16 h
  exact ⟨h1, h2, h3, h5, h6⟩

/-- Concrete instance of `scan_selects_first_max`: on buffer `[3, 7, 7]` with
position 0 already flagged, the scan picks position 1, the first unflagged
position holding the maximum 7. -/
theorem scan_selects_first_max_witness :
    ([3, 7, 7] : List ℕ).length ≤ 65536 ∧
      [true, false, false].getD 1 false = false ∧
      0 < ([3, 7, 7] : List ℕ).getD 1 0 ∧
      [true, false, false].getD (scanMax [3, 7, 7] [true, false, false] 0).2
          false = false ∧
      ([3, 7, 7] : List ℕ).getD (scanMax [3, 7, 7] [true, false, false] 0).2 0 =
        (scanMax [3, 7, 7] [true, false, false] 0).1 :=
  ⟨by decide, by decide, by decide,
    (scan_selects_first_max [3, 7, 7] [true, false, false] 0 (by decide)
      ⟨1, by decide, by decide, by decide⟩).2.1,
    (scan_selects_first_max [3, 7, 7] [true, false, false] 0 (by decide)
      ⟨1, by decide, by decide, by decide⟩).2.2.1⟩

/-- One scan over a buffer whose only nonzero value sits at the last index
`n`, with nothing flagged, returns that value but stores the index truncated
to `uint16_t`: `max_index = j` keeps only `j % 2 ^ 16`. -/
theorem scanMax_late_single_max (data : List ℕ) (flags : List Bool) (n : ℕ)
    (hlen : data.length = n + 1)
    (hzero : ∀ j, j < n → data.getD j 0 = 0)
    (hpos : 0 < data.getD n 0)
    (hflags : ∀ j, flags.getD j false = false) :
    scanMax data flags 0 = (data.getD n 0, n % 65536) := by
  rw [scanMax, hlen]
  have hacc : scanIter data flags 0 n = (0, 0) :=
    scanIter_all_zero data flags 0 n fun j hj _ => hzero j hj
  have hcond : data.getD n 0 > (scanIter data flags 0 n).1 ∧
      flags.getD n false = false := by
    refine ⟨?_, hflags n⟩
    have h1 : (scanIter data flags 0 n).1 = 0 := by rw [hacc]
    omega
  simp only [scanIter]
  rw [if_pos hcond]

/-- C3 as stated fails on the code at two inputs.  First, after round 1 on
the buffer `[5, 0]` at level 100 the state is `[0, 0]` with flags
`[true, false]` and stale `max_index = 0`; the round-2 scan returns index 0,
which is flagged — not the first unflagged index (position 1) at which the
maximum unflagged value (here 0) occurs — because the scan seeds
`current_max` with 0 and uses a strict comparison, so it can never register
a zero-valued pixel.  Second, on a 65537-sample buffer whose single maximum
5 sits at index 65536 with nothing flagged, the scan returns index 0 — which
holds 0, not the maximum — because `max_index` is a `uint16_t` and
`max_index = j` truncates 65536 to 0. -/
theorem scan_stale_index_cex :
    ((adjustRun scaleLevel100 [5, 0] 1).data = [0, 0] ∧
      (adjustRun scaleLevel100 [5, 0] 1).flags = [true, false] ∧
      (adjustRun scaleLevel100 [5, 0] 1).maxIndex = 0 ∧
      scanMax [0, 0] [true, false] 0 = (0, 0) ∧
      [true, false].getD 0 false = true) ∧
      (scanMax (List.replicate 65536 (0 : ℕ) ++ [5])
          (List.replicate 65537 false) 0 = (5, 0) ∧
        (List.replicate 65536 (0 : ℕ) ++ [5]).getD 65536 0 = 5 ∧
        (List.replicate 65537 false).getD 65536 false = false ∧
        (List.replicate 65536 (0 : ℕ) ++ [5]).getD 0 0 = 0) := by
  have hval : (List.replicate 65536 (0 : ℕ) ++ [5]).getD 65536 0 = 5 := by
    rw [List.getD_eq_getElem?_getD,
      List.getElem?_append_right (le_of_eq (by rw [List.length_replicate])),
      List.length_replicate]
    rfl
  have hzero : ∀ j, j < 65536 →
      (List.replicate 65536 (0 : ℕ) ++ [5]).getD j 0 = 0 := by
    intro j hj
    rw [List.getD_eq_getElem?_getD,
      List.getElem?_append_left (by rw [List.length_replicate]; exact hj),
      List.getElem?_replicate_of_lt hj]
    rfl
  have hflag : ∀ j, (List.replicate 65537 false).getD j false = false :=
    fun j => getD_replicate 65537 j false
  refine ⟨by decide, ?_, hval, hflag 65536, hzero 0 (by norm_num)⟩
  have hlen : (List.replicate 65536 (0 : ℕ) ++ [5]).length = 65536 + 1 := by
    rw [List.length_append, List.length_replicate]
    rfl
  have hmain := scanMax_late_single_max (List.replicate 65536 (0 : ℕ) ++ [5])
    (List.replicate 65537 false) 65536 hlen hzero
    (by rw [hval]; norm_num) hflag
  rw [hmain, hval]

/-! ### The downscaler -/

/-- C4: the downscaler keeps `side * side` samples where
`side = floor(sqrt N)` rounded down to a multiple of 4, and sample `i` of the
output is `data[i] / 256`, in original order. -/
theorem downscale_spec (data : List ℕ) :
    sideLength data.length ≤ Nat.sqrt data.length ∧
      Nat.sqrt data.length < sideLength data.length + 4 ∧
      sideLength data.length % 4 = 0 ∧
      (downscale data).length =
        sideLength data.length * sideLength data.length ∧
      ∀ i, i < sideLength data.length * sideLength data.length →
        (downscale data).getD i 0 = data.getD i 0 / 256 := by
  have hle : sideLength data.length ≤ Nat.sqrt data.length := by
    rw [sideLength]
    omega
  have hsq : sideLength data.length * sideLength data.length ≤ data.length :=
    le_trans (Nat.mul_le_mul hle hle) (Nat.sqrt_le data.length)
  refine ⟨hle, ?_, ?_, ?_, ?_⟩
  · rw [sideLength]
    omega
  · rw [sideLength]
    omega
  · rw [downscale, List.length_map, List.length_take]
    omega
  · intro i hi
    have hiN : i < data.length := lt_of_lt_of_le hi hsq
    rw [downscale, List.getD_eq_getElem?_getD, List.getD_eq_getElem?_getD,
      List.getElem?_map, List.getElem?_take_of_lt hi,
      List.getElem?_eq_getElem hiN]
    rfl

/-- Concrete instance of `downscale_spec` on 16 samples of value 512: the
side length is 4, the output has 16 samples, and each is `512 / 256 = 2`. -/
theorem downscale_spec_witness :
    sideLength (List.replicate 16 (512 : ℕ)).length % 4 = 0 ∧
      (downscale (List.replicate 16 (512 : ℕ))).length =
        sideLength (List.replicate 16 (512 : ℕ)).length *
          sideLength (List.replicate 16 (512 : ℕ)).length ∧
      (downscale (List.replicate 16 (512 : ℕ))).getD 0 0 =
        (List.replicate 16 (512 : ℕ)).getD 0 0 / 256 :=
  ⟨(downscale_spec _).2.2.1, (downscale_spec _).2.2.2.1,
    (downscale_spec _).2.2.2.2 0 (by
      simp only [List.length_replicate, sideLength_sixteen]
      norm_num)⟩

/-! ### The bitmap builder and its invariants -/

/-- C5: a fully built grayscale bitmap satisfies the structural invariants;
setting a width that is not a multiple of 4 fails and changes nothing; and
both mutators preserve the invariants. -/
theorem bitmap_invariants_hold (w h : ℕ) (pix : List ℕ) (b : Bitmap) :
    (w % 4 = 0 → (buildGrayscaleBitmap w h pix).1 = Status.success ∧
      bitmapInvariants (buildGrayscaleBitmap w h pix).2) ∧
      (w % 4 ≠ 0 → bitmapSetWidthHeight b w h = (Status.failure, b)) ∧
      (bitmapInvariants b → bitmapInvariants (bitmapSetWidthHeight b w h).2) ∧
      (bitmapInvariants b → bitmapInvariants (bitmapFillPixelData b pix).2) := by
  refine ⟨?_, ?_, ?_, ?_⟩
  · intro hw
    have hw2 : ¬w % 4 ≠ 0 := by omega
    simp [buildGrayscaleBitmap, bitmapSetWidthHeight, if_neg hw2,
      bitmapFillPixelData, bitmapInit8BitGrayscale, bitmapInvariants,
      pixelDataOffset, hw]
    omega
  · intro hw
    simp only [bitmapSetWidthHeight, if_pos hw]
  · intro hb
    by_cases hw : w % 4 ≠ 0
    · simpa only [bitmapSetWidthHeight, if_pos hw] using hb
    · obtain ⟨h1, h2, h3, h4, h5, h6⟩ := hb
      simp [bitmapSetWidthHeight, if_neg hw, bitmapInvariants, h3, h5, h6]
      omega
  · intro hb
    obtain ⟨h1, h2, h3, h4, h5, h6⟩ := hb
    simp only [bitmapFillPixelData, if_pos h6, bitmapInvariants]
    exact ⟨h1, h2, h3, h4, h5, h6⟩

/-- Concrete instance of `bitmap_invariants_hold`: building a 4-by-2 bitmap
succeeds with all invariants, and setting width 5 fails leaving the bitmap
unchanged. -/
theorem bitmap_invariants_hold_witness :
    (4 % 4 = 0 ∧ (buildGrayscaleBitmap 4 2 [9]).1 = Status.success ∧
        bitmapInvariants (buildGrayscaleBitmap 4 2 [9]).2) ∧
      (5 % 4 ≠ 0 ∧ bitmapSetWidthHeight bitmapInit8BitGrayscale 5 3 =
        (Status.failure, bitmapInit8BitGrayscale)) :=
  ⟨⟨by decide,
    ((bitmap_invariants_hold 4 2 [9] bitmapInit8BitGrayscale).1 (by decide)).1,
    ((bitmap_invariants_hold 4 2 [9] bitmapInit8BitGrayscale).1 (by decide)).2⟩,
   ⟨by decide,
    (bitmap_invariants_hold 5 3 [9] bitmapInit8BitGrayscale).2.1 (by decide)⟩⟩

/-- C9: the color table built by `BitmapInit8BitGrayscale` has exactly 256
entries, entry `i` being the gray triple `(i, i, i)` with padding 0, and
neither mutator touches the color table. -/
theorem color_table_grayscale_ramp :
    bitmapInit8BitGrayscale.color_table.length = 256 ∧
      (∀ i, i < 256 →
        bitmapInit8BitGrayscale.color_table.getD i ⟨0, 0, 0, 0⟩ = ⟨i, i, i, 0⟩) ∧
      (∀ b w h, (bitmapSetWidthHeight b w h).2.color_table = b.color_table) ∧
      (∀ b pix, (bitmapFillPixelData b pix).2.color_table = b.color_table) := by
  refine ⟨?_, ?_, ?_, ?_⟩
  · simp [bitmapInit8BitGrayscale, grayRamp]
  · intro i hi
    simp [bitmapInit8BitGrayscale, grayRamp, List.getD_eq_getElem?_getD,
      List.getElem?_range hi]
  · intro b w h
    by_cases hw : w % 4 ≠ 0 <;> simp [bitmapSetWidthHeight, hw]
  · intro b pix
    by_cases hd : b.info_header.bit_depth = 8 <;> simp [bitmapFillPixelData, hd]

/-- Concrete instance of `color_table_grayscale_ramp` at entry 7. -/
theorem color_table_grayscale_ramp_witness :
    bitmapInit8BitGrayscale.color_table.length = 256 ∧ 7 < 256 ∧
      bitmapInit8BitGrayscale.color_table.getD 7 ⟨0, 0, 0, 0⟩ = ⟨7, 7, 7, 0⟩ :=
  ⟨color_table_grayscale_ramp.1, by decide,
    color_table_grayscale_ramp.2.1 7 (by decide)⟩

/-! ### The serializer and small inputs -/

/-- C6 fails on the code: `WriteBmpToFile` copies `pixel_data` verbatim, so
for a 4-by-2 image with top row `[1, 1, 1, 1]` and bottom row `[2, 2, 2, 2]`
the serialized pixel area starts with the FIRST input row, not the last:
there is no bottom-to-top reversal.  (The zero per-row padding half of the
claim does hold: exactly `width * height` pixel bytes are emitted.) -/
theorem serialize_keeps_row_order :
    (buildGrayscaleBitmap 4 2 [1, 1, 1, 1, 2, 2, 2, 2]).2.pixel_data =
        [1, 1, 1, 1, 2, 2, 2, 2] ∧
      (serializeBitmap
          (buildGrayscaleBitmap 4 2 [1, 1, 1, 1, 2, 2, 2, 2]).2).drop 1078 =
        [1, 1, 1, 1, 2, 2, 2, 2] ∧
      (buildGrayscaleBitmap 4 2
          [1, 1, 1, 1, 2, 2, 2, 2]).2.header.pixel_data_offset = 1078 ∧
      ([1, 1, 1, 1, 2, 2, 2, 2] : List ℕ) ≠ [2, 2, 2, 2, 1, 1, 1, 1] := by
  decide

/-- C7 fails on the code: the empty-input guard of
`GeneratePreviewBitmapFrom16Bit` is a dead store (line 369 overwrites
`status` immediately), `BitmapSetWidthHeight` accepts width 0 because
`0 % 4 == 0`, and the fill loop runs zero times, so both an empty input and a
15-sample input (side length 0) produce success, not a failure. -/
theorem preview_succeeds_on_small_input :
    (generatePreviewBitmapFrom16Bit []).1 = Status.success ∧
      (generatePreviewBitmapFrom16Bit (List.replicate 15 7)).1 =
        Status.success ∧
      sideLength (List.replicate 15 (7 : ℕ)).length = 0 := by
  refine ⟨?_, ?_, ?_⟩
  · simp only [generatePreviewBitmapFrom16Bit, downscale, List.length_nil,
      sideLength_zero]
    decide
  · simp only [generatePreviewBitmapFrom16Bit, downscale,
      List.length_replicate, sideLength_fifteen]
    decide
  · rw [List.length_replicate]
    exact sideLength_fifteen

end Delite
